import Mathlib

/-!
Verification of the kolibri api-resource module (Model / Collection /
Resource / ResourceManager).

The JavaScript source is shallowly embedded: attribute objects become
association lists of string keys and primitive values, the per-`Resource`
model cache becomes an explicit state record with a model heap (list
indices play the role of object references, so reference identity is
index equality), and each asynchronous operation is split into its
synchronous decision part and its response-handler part, both pure
functions of the state.
-/

namespace ApiResource

/-- Primitive JavaScript values that occur as attribute values in this
module (strings, numbers, booleans). -/
inductive Value where
  | vStr (s : String)
  | vNum (n : Int)
  | vBool (b : Bool)
deriving DecidableEq, Repr, Inhabited

/-- Embeds the JavaScript `String(v)` coercion used in `Model.set`
(source line 218). -/
def jsString : Value → String
  | .vStr s => s
  | .vNum n => toString n
  | .vBool b => cond b ("true") ("false")

/-- Embeds JavaScript truthiness of a primitive value, as used by
`if (model.id)` checks (source lines 125, 142, 176, 452). -/
def jsTruthy : Value → Bool
  | .vStr s => decide (s ≠ "")
  | .vNum n => decide (n ≠ 0)
  | .vBool b => b

/-- Truthiness of an attribute lookup: an absent key reads as
`undefined`, which is falsy. -/
def idTruthy : Option Value → Bool
  | none => false
  | some v => jsTruthy v

/-- A JavaScript attribute object: an association list with (by
construction) pairwise distinct string keys. -/
abbrev Attrs := List (String × Value)

/-- Embeds property read `o[k]`: the value at the first matching key. -/
def objGet (o : Attrs) (k : String) : Option Value :=
  (o.find? (fun p => decide (p.1 = k))).map (fun p => p.2)

/-- Embeds `Object.keys(o)`. -/
def keys (o : Attrs) : List String := o.map Prod.fst

/-- Embeds property write `o[k] = v`: overwrite an existing key in
place, otherwise append the new key at the end (JavaScript insertion
order). -/
def setKey (o : Attrs) (k : String) (v : Value) : Attrs :=
  if k ∈ keys o then o.map (fun p => if p.1 = k then (k, v) else p)
  else o ++ [(k, v)]

/-- Embeds `Object.assign(target, source)`: copy the properties of
`source` onto `target`, in order. -/
def objAssign (target source : Attrs) : Attrs :=
  source.foldl (fun acc p => setKey acc p.1 p.2) target

/-! Basic lemmas about the object model. -/

theorem objGet_nil (k : String) : objGet [] k = none := rfl

theorem objGet_cons (a : String) (b : Value) (l : Attrs) (k : String) :
    objGet ((a, b) :: l) k = if a = k then some b else objGet l k := by
  by_cases h : a = k <;> simp [objGet, List.find?_cons, h]

theorem keys_cons (a : String) (b : Value) (t : Attrs) :
    keys ((a, b) :: t) = a :: keys t := rfl

theorem objGet_eq_none_of_not_mem {l : Attrs} {k : String}
    (h : k ∉ keys l) : objGet l k = none := by
  induction l with
  | nil => rfl
  | cons p t ih =>
      obtain ⟨a, b⟩ := p
      rw [keys_cons] at h
      rw [objGet_cons, if_neg (fun e => h (by rw [← e]; exact List.mem_cons_self a _))]
      exact ih (fun hm => h (List.mem_cons_of_mem a hm))

theorem mem_keys_of_objGet_eq_some {l : Attrs} {k : String} {v : Value}
    (h : objGet l k = some v) : k ∈ keys l := by
  by_contra hk
  rw [objGet_eq_none_of_not_mem hk] at h
  exact Option.noConfusion h

theorem mem_of_objGet_eq_some {l : Attrs} {k : String} {v : Value}
    (h : objGet l k = some v) : (k, v) ∈ l := by
  induction l with
  | nil => exact absurd h (by simp [objGet])
  | cons p t ih =>
      obtain ⟨a, b⟩ := p
      rw [objGet_cons] at h
      by_cases ha : a = k
      · rw [if_pos ha] at h
        cases h
        subst ha
        exact List.mem_cons_self _ _
      · rw [if_neg ha] at h
        exact List.mem_cons_of_mem _ (ih h)

theorem objGet_of_mem_nodup {l : Attrs} {k : String} {v : Value}
    (hn : (keys l).Nodup) (h : (k, v) ∈ l) : objGet l k = some v := by
  induction l with
  | nil => cases h
  | cons p t ih =>
      obtain ⟨a, b⟩ := p
      rw [keys_cons, List.nodup_cons] at hn
      rcases List.mem_cons.mp h with h1 | h1
      · cases h1
        rw [objGet_cons, if_pos rfl]
      · have hk : k ∈ keys t := List.mem_map_of_mem Prod.fst h1
        have hak : a ≠ k := fun e => hn.1 (by rw [e]; exact hk)
        rw [objGet_cons, if_neg hak]
        exact ih hn.2 h1

theorem objGet_eq_of_perm {l l' : Attrs} (hp : l.Perm l')
    (hn : (keys l).Nodup) (k : String) : objGet l k = objGet l' k := by
  have hn' : (keys l').Nodup := (hp.map Prod.fst).nodup_iff.mp hn
  cases h : objGet l k with
  | none =>
      have hk : k ∉ keys l := by
        intro hmem
        rcases List.mem_map.mp hmem with ⟨⟨a, b⟩, hab, he⟩
        cases he
        rw [objGet_of_mem_nodup hn hab] at h
        exact Option.noConfusion h
      have hk' : k ∉ keys l' := fun hmem => hk ((hp.map Prod.fst).mem_iff.mpr hmem)
      rw [objGet_eq_none_of_not_mem hk']
  | some v =>
      have hm : (k, v) ∈ l' := hp.mem_iff.mp (mem_of_objGet_eq_some h)
      rw [objGet_of_mem_nodup hn' hm]

theorem keys_map_update (o : Attrs) (k : String) (v : Value) :
    keys (o.map (fun p => if p.1 = k then (k, v) else p)) = keys o := by
  induction o with
  | nil => rfl
  | cons p t ih =>
      obtain ⟨a, b⟩ := p
      show keys ((if a = k then (k, v) else (a, b)) :: _) = _
      by_cases ha : a = k
      · rw [if_pos ha, keys_cons, keys_cons, ih, ha]
      · rw [if_neg ha, keys_cons, keys_cons, ih]

theorem keys_setKey_of_mem {o : Attrs} {k : String} (v : Value)
    (h : k ∈ keys o) : keys (setKey o k v) = keys o := by
  rw [setKey, if_pos h]
  exact keys_map_update o k v

theorem objGet_map_update_self {o : Attrs} {k : String} (v : Value)
    (h : k ∈ keys o) :
    objGet (o.map (fun p => if p.1 = k then (k, v) else p)) k = some v := by
  induction o with
  | nil => cases h
  | cons p t ih =>
      obtain ⟨a, b⟩ := p
      by_cases ha : a = k
      · simp only [List.map_cons, if_pos ha]
        rw [objGet_cons, if_pos rfl]
      · simp only [List.map_cons, if_neg ha]
        rw [objGet_cons, if_neg ha]
        have ht : k ∈ keys t := by
          simp [keys] at h ⊢
          tauto
        exact ih ht

theorem objGet_map_update_other (o : Attrs) {k k' : String} (v : Value)
    (h : k' ≠ k) :
    objGet (o.map (fun p => if p.1 = k then (k, v) else p)) k' = objGet o k' := by
  induction o with
  | nil => rfl
  | cons p t ih =>
      obtain ⟨a, b⟩ := p
      by_cases ha : a = k
      · subst ha
        simp only [List.map_cons, if_pos rfl]
        rw [objGet_cons, objGet_cons, if_neg (fun e => h e.symm),
          if_neg (fun e => h e.symm)]
        exact ih
      · simp only [List.map_cons, if_neg ha]
        rw [objGet_cons, objGet_cons]
        by_cases hak : a = k'
        · rw [if_pos hak, if_pos hak]
        · rw [if_neg hak, if_neg hak]
          exact ih

theorem objGet_setKey_self (o : Attrs) (k : String) (v : Value) :
    objGet (setKey o k v) k = some v := by
  by_cases h : k ∈ keys o
  · rw [setKey, if_pos h]
    exact objGet_map_update_self v h
  · rw [setKey, if_neg h]
    induction o with
    | nil => rw [List.nil_append, objGet_cons, if_pos rfl]
    | cons p t ih =>
        obtain ⟨a, b⟩ := p
        have ha : a ≠ k := by
          intro e
          exact h (by simp [keys, e])
        rw [List.cons_append, objGet_cons, if_neg ha]
        exact ih (by
          intro hmem
          exact h (by simp [keys] at hmem ⊢; tauto))

theorem objGet_setKey_other (o : Attrs) {k k' : String} (v : Value)
    (h : k' ≠ k) : objGet (setKey o k v) k' = objGet o k' := by
  by_cases hm : k ∈ keys o
  · rw [setKey, if_pos hm]
    exact objGet_map_update_other o v h
  · rw [setKey, if_neg hm]
    induction o with
    | nil => rw [List.nil_append, objGet_cons, if_neg (fun e => h e.symm)]
    | cons p t ih =>
        obtain ⟨a, b⟩ := p
        rw [List.cons_append, objGet_cons, objGet_cons]
        by_cases hak : a = k'
        · rw [if_pos hak, if_pos hak]
        · rw [if_neg hak, if_neg hak]
          exact ih (fun hmem => hm (by simp [keys] at hmem ⊢; tauto))

theorem objAssign_cons (t : Attrs) (a : String) (b : Value) (src : Attrs) :
    objAssign t ((a, b) :: src) = objAssign (setKey t a b) src := rfl

theorem objGet_objAssign (t : Attrs) {src : Attrs}
    (hn : (keys src).Nodup) (k : String) :
    objGet (objAssign t src) k =
      match objGet src k with
      | some v => some v
      | none => objGet t k := by
  induction src generalizing t with
  | nil => rfl
  | cons p rest ih =>
      obtain ⟨a, b⟩ := p
      rw [keys_cons, List.nodup_cons] at hn
      rw [objAssign_cons, ih (setKey t a b) hn.2, objGet_cons]
      by_cases hak : a = k
      · subst hak
        have hr : objGet rest a = none :=
          objGet_eq_none_of_not_mem hn.1
        rw [hr, if_pos rfl]
        exact objGet_setKey_self t a b
      · rw [if_neg hak]
        cases hrk : objGet rest k with
        | some v => rfl
        | none => exact objGet_setKey_other t b (fun e => hak e.symm)

/-! The Model data type and its operations (source lines 32 to 222). -/

/-- State of one Model instance: its `attributes` object and its
`synced` flag.  The operation-promise queue is modelled separately (see
`PromiseQueue` below). -/
structure ModelData where
  attributes : Attrs
  synced : Bool
deriving DecidableEq, Repr, Inhabited

/-- Embeds the id coercion done first in `Model.set` (source lines
217 to 219): if the id key is present in the incoming attributes, its
value is replaced by its string coercion.  This mutates the incoming
object before the merge, exactly as the source does. -/
def coerceId (idKey : String) (attributes : Attrs) : Attrs :=
  match objGet attributes idKey with
  | some v => setKey attributes idKey (.vStr (jsString v))
  | none => attributes

/-- Embeds `Model.set` (source lines 215 to 221): coerce the id field
of the incoming attributes to a string, then `Object.assign` the result
onto the current attributes. -/
def modelSet (idKey : String) (current attributes : Attrs) : Attrs :=
  objAssign current (coerceId idKey attributes)

/-- Embeds the `Model.id` getter (source lines 211 to 213). -/
def modelId (idKey : String) (m : ModelData) : Option Value :=
  objGet m.attributes idKey

/-! The Resource state: the model heap plus the two caches every
Resource owns (source lines 361 to 518).  List indices into `store` and
`collStore` play the role of JavaScript object references, so two cache
entries holding the same index hold the identical instance. -/

/-- State of one Collection instance (source lines 227 to 355):
`paramsRef` is the reference to the params object the constructor
received (`this.params = params`, no copy); `models` and `modelMap`
embed `this.models` and `this._model_map`; `syncedOwn` embeds the
backing field `_synced` of the synced getter/setter; `page`,
`pageSize`, `pageCount` are `undefined` (`none`) until assigned. -/
structure CollectionData where
  paramsRef : Nat
  models : List Nat
  modelMap : List (String × Nat)
  syncedOwn : Bool
  page : Option Nat
  pageSize : Option Nat
  pageCount : Option Nat
deriving DecidableEq, Repr, Inhabited

/-- State of one Resource: `idKey` (subclass override, default id),
the model heap `store`, the id-to-model cache `models`, the collection
heap `collStore`, the key-to-collection cache `collections`, and a heap
of params objects so that params aliasing is observable. -/
structure ResourceState where
  idKey : String
  store : List ModelData
  models : List (String × Nat)
  collStore : List CollectionData
  collections : List (String × Nat)
  paramsHeap : List Attrs
deriving DecidableEq, Repr, Inhabited

/-- Lookup in a string-keyed cache object (embeds `this.models[id]` and
`this.collections[key]`; a JavaScript object has at most one entry per
key, and any cached Model or Collection is truthy). -/
def lookupRef (cache : List (String × Nat)) (k : String) : Option Nat :=
  (cache.find? (fun p => decide (p.1 = k))).map (fun p => p.2)

theorem lookupRef_cons (a : String) (b : Nat) (l : List (String × Nat)) (k : String) :
    lookupRef ((a, b) :: l) k = if a = k then some b else lookupRef l k := by
  by_cases h : a = k <;> simp [lookupRef, List.find?_cons, h]

/-- Embeds the Model constructor (source lines 40 to 54): start with an
empty attributes object, `set` the construction data onto it, start
unsynced. -/
def newModel (idKey : String) (data : Attrs) : ModelData :=
  { attributes := modelSet idKey [] data, synced := false }

/-- Allocate a fresh Model on the heap (the `new Model(data, this)`
step of `Resource.createModel`, source line 438). -/
def allocModel (s : ResourceState) (data : Attrs) : ResourceState × Nat :=
  ({ s with store := s.store ++ [newModel s.idKey data] }, s.store.length)

/-- Embeds `Resource.addModel` applied to an existing Model instance
(source lines 447 to 461): if the model has a truthy id, either insert
it into the id cache (no entry yet) or merge its attributes into the
already cached instance and return that cached instance; models without
a truthy id are returned uncached. -/
def addModelRef (s : ResourceState) (r : Nat) : ResourceState × Nat :=
  let m := s.store.getD r default
  match modelId s.idKey m with
  | none => (s, r)
  | some v =>
      if jsTruthy v then
        match lookupRef s.models (jsString v) with
        | none => ({ s with models := (jsString v, r) :: s.models }, r)
        | some c =>
            let cached := s.store.getD c default
            let merged :=
              { cached with attributes := modelSet s.idKey cached.attributes m.attributes }
            ({ s with store := s.store.set c merged }, c)
      else (s, r)

/-- Embeds `Resource.createModel` (source lines 437 to 440): wrap the
raw data in a new Model, then route it through `addModel`. -/
def createModel (s : ResourceState) (data : Attrs) : ResourceState × Nat :=
  let r := allocModel s data
  addModelRef r.1 r.2

/-- Embeds `Resource.addModel` (source lines 447 to 461) including its
raw-data re-entry branch: raw data goes through `createModel`, an
existing instance through the instance path. -/
def addModel (s : ResourceState) (input : Attrs ⊕ Nat) : ResourceState × Nat :=
  match input with
  | .inl data => createModel s data
  | .inr r => addModelRef s r

/-- Embeds `Resource.getModel` (source lines 422 to 430): return the
cached Model for the id, or create (and thereby cache) an empty shell
carrying only the id. -/
def getModel (s : ResourceState) (id : String) : ResourceState × Nat :=
  match lookupRef s.models id with
  | none => createModel s [(s.idKey, .vStr id)]
  | some r => (s, r)

/-! Collection membership and fetch handling (source lines 227 to 355). -/

/-- Key under which a member is recorded in `_model_map`
(`this._model_map[setModel.id]`, source line 335): JavaScript coerces
the property key to a string, an absent id reads as `undefined`. -/
def mapKeyOf (idKey : String) (m : ModelData) : String :=
  match modelId idKey m with
  | some v => jsString v
  | none => "undefined"

/-- Embeds one iteration of the forEach in `Collection.set` (source
lines 331 to 339): canonicalize through `Resource.addModel`, then
append to the ordered list and the id map only if the id key is not
already present in this collection. -/
def collectionSetOne (s : ResourceState) (cd : CollectionData) (input : Attrs ⊕ Nat) :
    ResourceState × CollectionData × Nat :=
  let r := addModel s input
  let key := mapKeyOf r.1.idKey (r.1.store.getD r.2 default)
  match lookupRef cd.modelMap key with
  | some _ => (r.1, cd, r.2)
  | none =>
      (r.1,
        { cd with modelMap := (key, r.2) :: cd.modelMap, models := cd.models ++ [r.2] },
        r.2)

/-- Embeds `Collection.set` over a list of items (source lines
323 to 340). -/
def collectionSet (s : ResourceState) (cd : CollectionData) (inputs : List (Attrs ⊕ Nat)) :
    ResourceState × CollectionData :=
  inputs.foldl
    (fun acc input =>
      let r := collectionSetOne acc.1 acc.2 input
      (r.1, r.2.1))
    (s, cd)

/-- Embeds the `Collection.data` getter (source lines 342 to 344): the
attribute objects of the members, not the Model references. -/
def collData (s : ResourceState) (cd : CollectionData) : List Attrs :=
  cd.models.map (fun r => (s.store.getD r default).attributes)

/-- Write a member Model's synced flag in the heap
(`model.synced = true`, source line 290). -/
def setModelSynced (s : ResourceState) (r : Nat) (value : Bool) : ResourceState :=
  { s with store := s.store.set r { s.store.getD r default with synced := value } }

/-- Embeds the derived `Collection.synced` getter (source lines
346 to 350): reduce over the members with logical and, starting from
the collection's own `_synced` flag. -/
def collectionSyncedGet (s : ResourceState) (cd : CollectionData) : Bool :=
  cd.models.foldl (fun acc r => acc && (s.store.getD r default).synced) cd.syncedOwn

/-- Embeds the `Collection.synced` setter (source lines 352 to 354): it
writes only the collection's own backing flag. -/
def collectionSyncedSet (cd : CollectionData) (value : Bool) : CollectionData :=
  { cd with syncedOwn := value }

/-- Shape of a collection fetch response body, after the two runtime
checks the source performs (source lines 272 to 285): a JavaScript
array, an envelope object whose `results` field is defined (with its
`count` field), or anything else (malformed). -/
inductive RespEntity where
  | arr (entities : List Attrs)
  | envelope (results : List Attrs) (count : Nat)
  | malformed
deriving DecidableEq, Repr

/-- Settlement of the fetch promise by the response handler. -/
inductive FetchOutcome where
  | resolved (data : List Attrs)
  | rejectedWith
deriving DecidableEq, Repr

/-- Embeds `Math.ceil(count / this.pageSize)` (source line 281) for the
meaningful case of a positive pageSize; `none` stands for the NaN and
Infinity results produced when pageSize is `undefined` or zero.  The
theorem for claim C9 proves that for a positive pageSize this natural
number formula equals the real ceiling of the division. -/
def pageCountOf (count : Nat) (pageSize : Option Nat) : Option Nat :=
  match pageSize with
  | some ps => if ps = 0 then none else some ((count + ps - 1) / ps)
  | none => none

/-- Result of running the success callback of `Collection.fetch`. -/
structure CollFetchResult where
  state : ResourceState
  coll : CollectionData
  outcome : FetchOutcome
  loggedMalformed : Bool
deriving DecidableEq, Repr

/-- Embeds the success callback of `Collection.fetch` (source lines
266 to 295): reset the membership, branch on the response shape (array:
set it; envelope with a defined `results`: set the results and compute
`pageCount`; anything else: log malformed and set nothing), then mark
the collection synced, mark every member synced, and resolve with the
projected member data. -/
def collectionFetchReceive (s : ResourceState) (cd : CollectionData) (entity : RespEntity) :
    CollFetchResult :=
  let cd0 := { cd with models := [], modelMap := [] }
  let step : ResourceState × CollectionData × Bool :=
    match entity with
    | .arr entities =>
        let r := collectionSet s cd0 (entities.map Sum.inl)
        (r.1, r.2, false)
    | .envelope results count =>
        let r := collectionSet s cd0 (results.map Sum.inl)
        (r.1, { r.2 with pageCount := pageCountOf count r.2.pageSize }, false)
    | .malformed => (s, cd0, true)
  let cd2 := { step.2.1 with syncedOwn := true }
  let s2 := step.2.1.models.foldl (fun st r => setModelSynced st r true) step.1
  { state := s2, coll := cd2, outcome := .resolved (collData s2 cd2),
    loggedMalformed := step.2.2 }

/-! Resource collection cache (source lines 379 to 415). -/

/-- Serialization of a primitive value inside the cache key, after
`JSON.stringify`. -/
def stringifyValue : Value → String
  | .vStr s => "\"" ++ s ++ "\""
  | .vNum n => toString n
  | .vBool b => cond b ("true") ("false")

/-- Serialization of the assembled key object, after `JSON.stringify`
of an object literal (source lines 383 to 389). -/
def stringifyPairs (l : Attrs) : String :=
  "\x7b" ++ String.intercalate ("," )
    (l.map (fun p => "\"" ++ p.1 ++ "\":" ++ stringifyValue p.2)) ++ "\x7d"

/-- Comparison used to embed `Object.keys(params).sort()`: JavaScript's
default sort compares strings by their code units, embedded here as the
lexicographic order on the underlying character lists (which, unlike
the opaque String order, the kernel can evaluate). -/
def strLe (a b : String) : Prop := a.data ≤ b.data

instance : DecidableRel strLe :=
  fun a b => inferInstanceAs (Decidable (a.data ≤ b.data))

instance : IsTotal String strLe :=
  ⟨fun a b => le_total a.data b.data⟩

instance : IsTrans String strLe :=
  ⟨fun _ _ _ hab hbc => le_trans hab hbc⟩

instance : IsAntisymm String strLe :=
  ⟨fun a b hab hba => by
    apply congrArg String.mk
    exact le_antisymm hab hba⟩

/-- Embeds `Object.keys(params).sort()` (source line 385). -/
def sortKeys (l : List String) : List String := List.insertionSort strLe l

/-- Embeds the key-object assembly of `Resource.getCollection` (source
lines 383 to 389): the sorted keys, each paired with its value from
`params`. -/
def collectionKeyPairs (params : Attrs) : Attrs :=
  (sortKeys (keys params)).map (fun k => (k, (objGet params k).getD default))

/-- The full cache key built by `Resource.getCollection`. -/
def collectionKey (params : Attrs) : String :=
  stringifyPairs (collectionKeyPairs params)

/-- Embeds the Collection constructor (source lines 236 to 248) minus
the data seeding, which `collectionNew` performs: the params object is
stored by reference, membership starts empty, `synced = false` goes
through the setter and so writes only the own flag. -/
def newCollection (paramsRef : Nat) : CollectionData :=
  { paramsRef := paramsRef, models := [], modelMap := [], syncedOwn := false,
    page := none, pageSize := none, pageCount := none }

/-- Embeds `new Collection(params, data, this)` (source lines
236 to 248): construct empty, then `set(data)`. -/
def collectionNew (s : ResourceState) (paramsRef : Nat) (data : List (Attrs ⊕ Nat)) :
    ResourceState × CollectionData :=
  collectionSet s (newCollection paramsRef) data

/-- Embeds `Resource.getCollection` (source lines 379 to 397): build
the order-independent cache key from the params object, return the
cached Collection for that key if present, otherwise construct a new
Collection, cache it under the key, and return it. -/
def getCollection (s : ResourceState) (paramsRef : Nat) (data : List (Attrs ⊕ Nat)) :
    ResourceState × Nat :=
  let params := s.paramsHeap.getD paramsRef []
  let key := collectionKey params
  match lookupRef s.collections key with
  | some c => (s, c)
  | none =>
      let r := collectionNew s paramsRef data
      let cref := r.1.collStore.length
      ({ r.1 with
          collStore := r.1.collStore ++ [r.2],
          collections := (key, cref) :: r.1.collections }, cref)

/-- Embeds `Resource.getPagedCollection` (source lines 406 to 415):
`Object.assign` the page and page_size keys onto the caller's params
object in place, delegate to `getCollection` with that same object,
then assign `page` and `pageSize` onto the returned Collection. -/
def getPagedCollection (s : ResourceState) (paramsRef : Nat)
    (pageSize : Nat) (page : Nat) : ResourceState × Nat :=
  let p := s.paramsHeap.getD paramsRef []
  let p' := objAssign p
    [("page", Value.vNum (page : Int)), ("page_size", Value.vNum (pageSize : Int))]
  let s0 := { s with paramsHeap := s.paramsHeap.set paramsRef p' }
  let r := getCollection s0 paramsRef []
  let cdPaged := { r.1.collStore.getD r.2 default with
    page := some page, pageSize := some pageSize }
  let s2 := { r.1 with collStore := r.1.collStore.set r.2 cdPaged }
  (s2, r.2)

/-! Model fetch, save and delete decision logic (source lines
64 to 205).  Each operation is split at its suspension points: the
synchronous decision (cache hit, precondition failure, or which request
to issue with which payload), and the success-response handler. -/

/-- The URL table injected into a Resource (source lines 479 to 491):
`modelUrl` embeds the per-id detail route, `collectionUrl` the static
list route. -/
structure UrlTable where
  modelUrl : String → String
  collectionUrl : String

/-- What `Model.fetch` decides to do once the queue has drained
(source lines 67 to 71). -/
inductive FetchDecision where
  | cached (attrs : Attrs)
  | network
deriving DecidableEq, Repr

/-- Embeds the cache-hit short circuit of `Model.fetch` (source lines
67 to 71): not forced and already synced resolves with the current
attributes and issues no request; otherwise a GET is issued. -/
def modelFetchDecision (m : ModelData) (force : Bool) : FetchDecision :=
  if !force && m.synced then .cached m.attributes else .network

/-- Embeds the success callback of `Model.fetch` (source lines
72 to 80): merge the response entity into the attributes, mark synced,
resolve with the attributes. -/
def modelFetchReceive (idKey : String) (m : ModelData) (entity : Attrs) : ModelData :=
  { attributes := modelSet idKey m.attributes entity, synced := true }

/-- One whole successful `Model.fetch` call: the resulting model state,
the attributes the promise resolves with, and the number of network
requests issued (0 on a cache hit, 1 otherwise). -/
def modelFetchStep (idKey : String) (m : ModelData) (force : Bool) (entity : Attrs) :
    ModelData × Attrs × Nat :=
  match modelFetchDecision m force with
  | .cached a => (m, a, 0)
  | .network =>
      let m2 := modelFetchReceive idKey { m with synced := false } entity
      (m2, m2.attributes, 1)

/-- The request `Model.save` issues, or its immediate resolution
(source lines 103 to 165). -/
inductive SaveAction where
  | resolveNow (attrs : Attrs)
  | patchRequest (url : String) (payload : Attrs)
  | postRequest (url : String) (payload : Attrs)
deriving Repr, DecidableEq

/-- Embeds the dirty-checking loop of `Model.save` (source lines
107 to 113): keep exactly the fields of `attrs` whose values differ
(strict inequality) from the current attribute values. -/
def dirtyDiff (current attrs : Attrs) : Attrs :=
  attrs.filter (fun p => decide (objGet current p.1 ≠ some p.2))

/-- Embeds the request construction of `Model.save` (source lines
125 to 135): PATCH to the model's own URL if the model has a truthy id,
otherwise POST to the Resource's collection URL. -/
def saveRequestFor (idKey : String) (urls : UrlTable) (attributes payload : Attrs) :
    SaveAction :=
  match objGet attributes idKey with
  | some v =>
      if jsTruthy v then .patchRequest (urls.modelUrl (jsString v)) payload
      else .postRequest urls.collectionUrl payload
  | none => .postRequest urls.collectionUrl payload

/-- Embeds the body of `Model.save` up to issuing the request (source
lines 106 to 136): synced models build a dirty diff of `attrs` without
touching their attributes; unsynced models merge `attrs` via `set` and
use the full merged attribute object as payload; an empty payload
resolves immediately with the attributes; otherwise the model is marked
unsynced and the request is built by `saveRequestFor`. -/
def modelSave (idKey : String) (urls : UrlTable) (m : ModelData) (attrs : Attrs) :
    ModelData × SaveAction :=
  if m.synced then
    let payload := dirtyDiff m.attributes attrs
    if payload.isEmpty then (m, .resolveNow m.attributes)
    else ({ m with synced := false }, saveRequestFor idKey urls m.attributes payload)
  else
    let merged := modelSet idKey m.attributes attrs
    if merged.isEmpty then ({ m with attributes := merged }, .resolveNow merged)
    else ({ attributes := merged, synced := false },
      saveRequestFor idKey urls merged merged)

/-- What `Model.delete` decides once the queue has drained (source
lines 176 to 182). -/
inductive DeleteDecision where
  | rejectNoId (reason : String)
  | networkDelete (url : String)
deriving DecidableEq, Repr

/-- The rejection reason string of `Model.delete` (source line 178). -/
def deleteNoIdMessage : String :=
  "Can not delete model that we do not have an id for"

/-- Embeds the precondition check of `Model.delete` (source lines
176 to 182), together with the number of network requests issued: a
model without a truthy id rejects immediately with the reason string
and issues no request; otherwise a DELETE is issued to the model's
URL. -/
def modelDeleteDecision (idKey : String) (urls : UrlTable) (m : ModelData) :
    DeleteDecision × Nat :=
  match objGet m.attributes idKey with
  | some v =>
      if jsTruthy v then (.networkDelete (urls.modelUrl (jsString v)), 1)
      else (.rejectNoId deleteNoIdMessage, 0)
  | none => (.rejectNoId deleteNoIdMessage, 0)

/-! The per-instance promise queue (source lines 52 to 95, 104 to 105,
174 to 175, 246 to 261, 308 to 309).  Every operation on a Model or
Collection creates a promise, makes its body wait on `Promise.all` of
the promises captured from `this.promises` at invocation time, pushes
its own promise onto `this.promises`, and splices itself out when it
settles.  The discipline below states the timing facts this mechanism
guarantees on the single-threaded event loop: an operation `a` is
outstanding from `a.issue` (invocation, push) to `a.finish` (settle,
splice); its body runs in the interval from `a.start` to `a.finish`;
and if `b` is invoked while `a` is still outstanding, then `a`'s
promise is in the list `b` captures, so `b`'s body cannot start before
`a` settles. -/

/-- One queued operation on a single Model or Collection instance, by
the times of its three events: invocation (promise created and pushed),
body start (the captured `Promise.all` resolved), and settlement
(resolve or reject, then splice). -/
structure QueuedOp where
  issue : Nat
  start : Nat
  finish : Nat
deriving DecidableEq, Repr

/-- Events of one operation happen in order: it is invoked before its
body runs, and its body runs for positive time before it settles. -/
def WellTimed (a : QueuedOp) : Prop := a.issue < a.start ∧ a.start < a.finish

/-- The promise-queue discipline for the set of operations invoked on
one instance: every operation is well timed, and an operation invoked
while an earlier one is still outstanding starts only after that
earlier operation has settled (the `Promise.all(this.promises)` gate,
source lines 66, 105, 175, 261). -/
def PromiseQueue (ops : List QueuedOp) : Prop :=
  (∀ a ∈ ops, WellTimed a) ∧
  ∀ a ∈ ops, ∀ b ∈ ops, a.issue < b.issue → b.issue < a.finish → a.finish < b.start

/-- Two operation bodies overlap in time. -/
def ExecOverlap (a b : QueuedOp) : Prop := a.start < b.finish ∧ b.start < a.finish

instance (a : QueuedOp) : Decidable (WellTimed a) :=
  inferInstanceAs (Decidable (_ ∧ _))

instance (a b : QueuedOp) : Decidable (ExecOverlap a b) :=
  inferInstanceAs (Decidable (_ ∧ _))

instance (ops : List QueuedOp) : Decidable (PromiseQueue ops) :=
  inferInstanceAs (Decidable (_ ∧ _))

/-! Concrete example inputs, used by the witness theorems below. -/

/-- A sample URL table for a resource named detail/list. -/
def urlsW : UrlTable :=
  { modelUrl := fun i => "detail/" ++ i, collectionUrl := "list" }

/-- A Resource state holding one cached Model with id 7. -/
def sW : ResourceState :=
  { idKey := "id",
    store := [{ attributes := [("id", .vStr ("7")), ("b", .vNum 5)], synced := true }],
    models := [("7", 0)], collStore := [], collections := [], paramsHeap := [] }

/-- Incoming raw data carrying the already cached id 7. -/
def dW : Attrs := [("id", .vNum 7), ("a", .vNum 1)]

/-- An empty Resource state with two distinct (initially empty) params
objects on the heap. -/
def sPage : ResourceState :=
  { idKey := "id", store := [], models := [], collStore := [], collections := [],
    paramsHeap := [[], []] }

/-- An empty Resource state with two params objects holding the same
key-value pairs in opposite insertion order. -/
def sPerm : ResourceState :=
  { idKey := "id", store := [], models := [], collStore := [], collections := [],
    paramsHeap := [[("b", .vNum 2), ("a", .vNum 1)], [("a", .vNum 1), ("b", .vNum 2)]] }

/-- A Resource state with two synced Models, both members of a
collection. -/
def sSync : ResourceState :=
  { idKey := "id",
    store := [{ attributes := [("id", .vStr ("1"))], synced := true },
              { attributes := [("id", .vStr ("2"))], synced := true }],
    models := [("1", 0), ("2", 1)], collStore := [], collections := [], paramsHeap := [] }

/-- A collection whose members are the two Models of `sSync`, own flag
set. -/
def cdSync : CollectionData :=
  { paramsRef := 0, models := [0, 1], modelMap := [("1", 0), ("2", 1)],
    syncedOwn := true, page := none, pageSize := none, pageCount := none }

/-- A collection with `pageSize` assigned (as `getPagedCollection`
leaves it). -/
def cdPaged20 : CollectionData :=
  { paramsRef := 0, models := [], modelMap := [], syncedOwn := false,
    page := some 1, pageSize := some 20, pageCount := none }

/-- A collection holding the Model of `sW` as its only member. -/
def cdW : CollectionData :=
  { paramsRef := 0, models := [0], modelMap := [("7", 0)], syncedOwn := true,
    page := none, pageSize := none, pageCount := none }

/-! Supporting lemmas for the claims. -/

theorem getD_concat_length {α : Type} [Inhabited α] (l : List α) (x : α) :
    (l ++ [x]).getD l.length default = x := by
  induction l with
  | nil => rfl
  | cons a t ih => exact ih

theorem getD_append_left {α : Type} [Inhabited α] {l : List α} (l' : List α)
    {n : Nat} (h : n < l.length) : (l ++ l').getD n default = l.getD n default := by
  induction l generalizing n with
  | nil => cases h
  | cons a t ih =>
      cases n with
      | zero => rfl
      | succ n => exact ih (Nat.lt_of_succ_lt_succ h)

theorem getD_set_self {α : Type} [Inhabited α] {l : List α} {n : Nat} (a : α)
    (h : n < l.length) : (l.set n a).getD n default = a := by
  induction l generalizing n with
  | nil => cases h
  | cons b t ih =>
      cases n with
      | zero => rfl
      | succ n => exact ih (Nat.lt_of_succ_lt_succ h)

theorem jsTruthy_vStr {X : String} (h : X ≠ "") :
    jsTruthy (Value.vStr X) = true := by
  simp [jsTruthy, h]

/-- A new Model built from data whose id key holds `v` carries the
string coercion of `v` as its id. -/
theorem modelId_newModel {idKey : String} {d : Attrs} {v : Value}
    (hn : (keys d).Nodup) (hv : objGet d idKey = some v) :
    modelId idKey (newModel idKey d) = some (Value.vStr (jsString v)) := by
  have hcoerce : coerceId idKey d = setKey d idKey (Value.vStr (jsString v)) := by
    rw [coerceId, hv]
  have hmem : idKey ∈ keys d := mem_keys_of_objGet_eq_some hv
  have hkeys : keys (setKey d idKey (Value.vStr (jsString v))) = keys d :=
    keys_setKey_of_mem _ hmem
  have hn' : (keys (coerceId idKey d)).Nodup := by
    rw [hcoerce, hkeys]; exact hn
  rw [modelId, newModel]
  show objGet (modelSet idKey [] d) idKey = _
  rw [modelSet, objGet_objAssign [] hn' idKey, hcoerce, objGet_setKey_self]

/-- Cache-hit behaviour of `addModelRef`: when the model at `r` has a
truthy id whose string is already cached at `c`, the incoming
attributes are merged into the cached instance and `c` itself is
returned; the id cache is left untouched. -/
theorem addModelRef_hit {s : ResourceState} {r c : Nat} {v : Value}
    (hmid : modelId s.idKey (s.store.getD r default) = some v)
    (htr : jsTruthy v = true)
    (hc : lookupRef s.models (jsString v) = some c) :
    addModelRef s r =
      ({ s with store := (s.store.set c
          ({ s.store.getD c default with
            attributes := modelSet s.idKey (s.store.getD c default).attributes
              (s.store.getD r default).attributes })) }, c) := by
  simp only [addModelRef, hmid, htr, hc, if_true, eq_self_iff_true]

/-- Both branches of the dedup check inside `Collection.set` return the
reference produced by `Resource.addModel`. -/
theorem collectionSetOne_ref (s : ResourceState) (cd : CollectionData)
    (input : Attrs ⊕ Nat) :
    (collectionSetOne s cd input).2.2 = (addModel s input).2 := by
  simp only [collectionSetOne]
  split <;> rfl

/-- Claim C1 - within one Resource, at most one Model instance exists
per non-empty id: a `createModel` (the raw-data `addModel` path) whose
data carries an id already present in the Resource's id cache merges
the incoming attributes into the already cached Model and returns that
same cached instance (the cache entry is never replaced), and both
`getModel` and the `Collection.set` canonicalization path used by a
Collection fetch yield that identical instance. -/
theorem addModel_merges_into_cached_instance
    (s : ResourceState) (d : Attrs) (v : Value) (X : String) (c : Nat)
    (cd : CollectionData)
    (hn : (keys d).Nodup)
    (hv : objGet d s.idKey = some v)
    (hX : jsString v = X)
    (hX0 : X ≠ "")
    (hc : lookupRef s.models X = some c)
    (hlt : c < s.store.length) :
    (createModel s d).2 = c
    ∧ (createModel s d).1.models = s.models
    ∧ (createModel s d).1.store.getD c default =
        { s.store.getD c default with
          attributes := modelSet s.idKey (s.store.getD c default).attributes
            (modelSet s.idKey [] d) }
    ∧ (getModel s X).2 = c
    ∧ (collectionSetOne s cd (Sum.inl d)).2.2 = c := by
  have hstore : (s.store ++ [newModel s.idKey d]).getD s.store.length default =
      newModel s.idKey d := getD_concat_length s.store _
  have hs1 : createModel s d =
      addModelRef { s with store := s.store ++ [newModel s.idKey d] } s.store.length := rfl
  have hmid : modelId s.idKey
      ((s.store ++ [newModel s.idKey d]).getD s.store.length default) =
      some (Value.vStr X) := by
    rw [hstore, modelId_newModel hn hv, hX]
  have hhit := addModelRef_hit (s := { s with store := s.store ++ [newModel s.idKey d] })
    (r := s.store.length) (c := c) hmid (jsTruthy_vStr hX0) (by simpa [jsString] using hc)
  have hcached : (s.store ++ [newModel s.idKey d]).getD c default =
      s.store.getD c default := getD_append_left _ hlt
  have hcreate : createModel s d =
      ({ s with store := ((s.store ++ [newModel s.idKey d]).set c
          ({ s.store.getD c default with
            attributes := modelSet s.idKey (s.store.getD c default).attributes
              (modelSet s.idKey [] d) })) }, c) := by
    rw [hs1, hhit, hcached, hstore]
    rfl
  refine ⟨by rw [hcreate], by rw [hcreate], ?_, ?_, ?_⟩
  · rw [hcreate]
    exact getD_set_self _ (by
      rw [List.length_append, List.length_cons, List.length_nil]
      omega)
  · rw [getModel, hc]
  · rw [collectionSetOne_ref]
    show (addModel s (Sum.inl d)).2 = c
    rw [show addModel s (Sum.inl d) = createModel s d from rfl, hcreate]

/-- Witness for claim C1: in the state `sW`, whose id cache maps 7 to
the Model at index 0, re-adding raw data with id 7 returns index 0, and
`getModel` agrees. -/
theorem addModel_merges_into_cached_instance_witness :
    ((keys dW).Nodup ∧ objGet dW ("id") = some (Value.vNum 7)
      ∧ lookupRef sW.models ("7") = some 0 ∧ 0 < sW.store.length)
    ∧ (createModel sW dW).2 = 0 ∧ (getModel sW ("7")).2 = 0 := by
  have h := addModel_merges_into_cached_instance sW dW (Value.vNum 7) ("7") 0
    (newCollection 0) (by decide) (by decide) (by decide) (by decide) (by decide)
    (by decide)
  exact ⟨⟨by decide, by decide, by decide, by decide⟩, h.1, h.2.2.2.1⟩

/-- Claim C2 - operations queued on one Model or Collection instance
execute serially and in issue order: under the promise-queue discipline
(each operation's body is gated on the promises outstanding at its
invocation), an operation invoked earlier finishes before a later one
starts its body, so bodies start in issue order and no two bodies
overlap in time. -/
theorem promiseQueue_serializes_operations
    (ops : List QueuedOp) (hq : PromiseQueue ops)
    (a : QueuedOp) (ha : a ∈ ops) (b : QueuedOp) (hb : b ∈ ops)
    (hab : a.issue < b.issue) :
    a.finish < b.start ∧ a.start < b.start ∧ ¬ ExecOverlap a b := by
  obtain ⟨hwt, hgate⟩ := hq
  obtain ⟨hia, hsa⟩ := hwt a ha
  obtain ⟨hib, hsb⟩ := hwt b hb
  have hfs : a.finish < b.start := by
    by_cases hbi : b.issue < a.finish
    · exact hgate a ha b hb hab hbi
    · omega
  refine ⟨hfs, by omega, ?_⟩
  rw [ExecOverlap]
  omega

/-- Witness for claim C2: two concrete operations satisfying the
queue discipline, the first issued at 0 and settling at 3, the second
issued at 2 (while the first is outstanding) with body start 4. -/
theorem promiseQueue_serializes_operations_witness :
    PromiseQueue [⟨0, 1, 3⟩, ⟨2, 4, 5⟩]
    ∧ (3 : Nat) < 4 ∧ ¬ ExecOverlap ⟨0, 1, 3⟩ ⟨2, 4, 5⟩ := by
  have h := promiseQueue_serializes_operations [⟨0, 1, 3⟩, ⟨2, 4, 5⟩]
    (by decide) ⟨0, 1, 3⟩ (by decide) ⟨2, 4, 5⟩ (by decide) (by decide)
  exact ⟨by decide, h.1, h.2.2⟩

/-- Claim C3 - how `Model.save(attrs)` builds its request: on a synced
model the payload is exactly the dirty diff of `attrs` against the
current attributes (the model untouched until the request is issued);
on an unsynced model the payload is the full attribute set after
merging `attrs`; an empty payload resolves immediately with no request;
a non-empty payload marks the model unsynced and goes out as PATCH to
the model's own URL when the model has a (truthy) id and as POST to the
Resource's collection URL when it has none. -/
theorem modelSave_payload_and_request
    (idKey : String) (urls : UrlTable) (m : ModelData) (attrs : Attrs) :
    (m.synced = true → dirtyDiff m.attributes attrs = [] →
      modelSave idKey urls m attrs = (m, .resolveNow m.attributes))
    ∧ (m.synced = true → dirtyDiff m.attributes attrs ≠ [] →
      modelSave idKey urls m attrs =
        ({ m with synced := false },
          saveRequestFor idKey urls m.attributes (dirtyDiff m.attributes attrs)))
    ∧ (m.synced = false → modelSet idKey m.attributes attrs = [] →
      modelSave idKey urls m attrs =
        ({ m with attributes := [] }, .resolveNow []))
    ∧ (m.synced = false → modelSet idKey m.attributes attrs ≠ [] →
      modelSave idKey urls m attrs =
        ({ attributes := modelSet idKey m.attributes attrs, synced := false },
          saveRequestFor idKey urls (modelSet idKey m.attributes attrs)
            (modelSet idKey m.attributes attrs)))
    ∧ (∀ a p, objGet a idKey = none →
      saveRequestFor idKey urls a p = .postRequest urls.collectionUrl p)
    ∧ (∀ a p v, objGet a idKey = some v → jsTruthy v = true →
      saveRequestFor idKey urls a p = .patchRequest (urls.modelUrl (jsString v)) p) := by
  refine ⟨?_, ?_, ?_, ?_, ?_, ?_⟩
  · intro h1 h2
    simp [modelSave, h1, h2]
  · intro h1 h2
    cases hd : dirtyDiff m.attributes attrs with
    | nil => exact absurd hd h2
    | cons q t => simp [modelSave, h1, hd]
  · intro h1 h2
    simp [modelSave, h1, h2]
  · intro h1 h2
    cases hd : modelSet idKey m.attributes attrs with
    | nil => exact absurd hd h2
    | cons q t => simp [modelSave, h1, hd]
  · intro a p h
    simp [saveRequestFor, h]
  · intro a p v h htr
    simp [saveRequestFor, h, htr]

/-- Witness for claim C3, following the scenario in the spec: saving
`a = 1` on an unsynced id-less model POSTs the full attribute set to
the collection URL; saving `a = 1, b = 2` on a synced model with id 7
and `a = 1` PATCHes the model URL with exactly `b = 2`. -/
theorem modelSave_payload_and_request_witness :
    (ModelData.synced { attributes := [], synced := false } = false
      ∧ modelSet ("id") [] [("a", Value.vNum 1)] ≠ []
      ∧ dirtyDiff [("id", Value.vStr ("7")), ("a", Value.vNum 1)]
          [("a", Value.vNum 1), ("b", Value.vNum 2)] ≠ [])
    ∧ modelSave ("id") urlsW { attributes := [], synced := false } [("a", Value.vNum 1)]
        = ({ attributes := [("a", Value.vNum 1)], synced := false },
            SaveAction.postRequest ("list") [("a", Value.vNum 1)])
    ∧ modelSave ("id") urlsW
        { attributes := [("id", Value.vStr ("7")), ("a", Value.vNum 1)], synced := true }
        [("a", Value.vNum 1), ("b", Value.vNum 2)]
        = ({ attributes := [("id", Value.vStr ("7")), ("a", Value.vNum 1)], synced := false },
            SaveAction.patchRequest ("detail/7") [("b", Value.vNum 2)]) := by
  have h1 := (modelSave_payload_and_request ("id") urlsW
    { attributes := [], synced := false } [("a", Value.vNum 1)]).2.2.2.1
    rfl (by decide)
  have h2 := (modelSave_payload_and_request ("id") urlsW
    { attributes := [("id", Value.vStr ("7")), ("a", Value.vNum 1)], synced := true }
    [("a", Value.vNum 1), ("b", Value.vNum 2)]).2.1 rfl (by decide)
  exact ⟨⟨by decide, by decide, by decide⟩, h1.trans (by decide), h2.trans (by decide)⟩

/-- Claim C4 - an unforced fetch on a synced Model is a cache hit: it
resolves with the current attributes and issues no request, so two
consecutive unforced fetches on a synced Model issue zero (hence at
most one) network requests and both resolve with the same attribute
content. -/
theorem modelFetch_cache_hit (idKey : String) (m : ModelData) (e1 e2 : Attrs)
    (h : m.synced = true) :
    modelFetchDecision m false = .cached m.attributes
    ∧ (modelFetchStep idKey m false e1).2.2
        + (modelFetchStep idKey (modelFetchStep idKey m false e1).1 false e2).2.2 = 0
    ∧ (modelFetchStep idKey m false e1).2.2
        + (modelFetchStep idKey (modelFetchStep idKey m false e1).1 false e2).2.2 ≤ 1
    ∧ (modelFetchStep idKey (modelFetchStep idKey m false e1).1 false e2).2.1
        = (modelFetchStep idKey m false e1).2.1
    ∧ (modelFetchStep idKey m false e1).2.1 = m.attributes := by
  have hdec : modelFetchDecision m false = .cached m.attributes := by
    simp [modelFetchDecision, h]
  have hstep1 : modelFetchStep idKey m false e1 = (m, m.attributes, 0) := by
    simp [modelFetchStep, hdec]
  have hstep2 : modelFetchStep idKey (modelFetchStep idKey m false e1).1 false e2
      = (m, m.attributes, 0) := by
    rw [hstep1]
    simp [modelFetchStep, hdec]
  rw [hstep2, hstep1]
  exact ⟨hdec, rfl, by simp, rfl, rfl⟩

/-- Witness for claim C4 on a concrete synced model with id 7. -/
theorem modelFetch_cache_hit_witness :
    (ModelData.synced { attributes := [("id", Value.vStr ("7"))], synced := true } = true)
    ∧ modelFetchDecision { attributes := [("id", Value.vStr ("7"))], synced := true } false
        = FetchDecision.cached [("id", Value.vStr ("7"))]
    ∧ (modelFetchStep ("id") { attributes := [("id", Value.vStr ("7"))], synced := true }
        false []).2.2 = 0 := by
  have h := modelFetch_cache_hit ("id")
    { attributes := [("id", Value.vStr ("7"))], synced := true } [] [] rfl
  refine ⟨rfl, h.1, ?_⟩
  have := h.2.1
  omega

/-- Claim C6 - `Model.delete` on a Model whose attributes contain no id
rejects immediately with the descriptive no-id reason string and issues
zero network requests. -/
theorem modelDelete_rejects_without_id (idKey : String) (urls : UrlTable)
    (m : ModelData) (h : objGet m.attributes idKey = none) :
    modelDeleteDecision idKey urls m = (.rejectNoId deleteNoIdMessage, 0) := by
  simp [modelDeleteDecision, h]

/-- Witness for claim C6 on a concrete model without an id field. -/
theorem modelDelete_rejects_without_id_witness :
    objGet [("a", Value.vNum 1)] ("id") = none
    ∧ modelDeleteDecision ("id") urlsW
        { attributes := [("a", Value.vNum 1)], synced := false }
        = (DeleteDecision.rejectNoId deleteNoIdMessage, 0) := by
  exact ⟨by decide,
    modelDelete_rejects_without_id ("id") urlsW
      { attributes := [("a", Value.vNum 1)], synced := false } (by decide)⟩

theorem collectionSet_cons (s : ResourceState) (cd : CollectionData)
    (i : Attrs ⊕ Nat) (t : List (Attrs ⊕ Nat)) :
    collectionSet s cd (i :: t)
      = collectionSet (collectionSetOne s cd i).1 (collectionSetOne s cd i).2.1 t := rfl

theorem collectionSetOne_pageSize (s : ResourceState) (cd : CollectionData)
    (input : Attrs ⊕ Nat) :
    (collectionSetOne s cd input).2.1.pageSize = cd.pageSize := by
  simp only [collectionSetOne]
  split <;> rfl

theorem collectionSet_pageSize (s : ResourceState) (cd : CollectionData)
    (inputs : List (Attrs ⊕ Nat)) :
    (collectionSet s cd inputs).2.pageSize = cd.pageSize := by
  induction inputs generalizing s cd with
  | nil => rfl
  | cons i t ih =>
      rw [collectionSet_cons, ih]
      exact collectionSetOne_pageSize s cd i

/-- Claim C5 (amended) - on a malformed collection fetch body (neither
an array nor an object with a defined `results` field) the body is
logged and the promise is not rejected; but because the handler has
already reset the membership, the promise is resolved with the
collection's now-empty data, the collection is marked synced, and the
Resource state is untouched. -/
theorem collectionFetch_malformed_soft_resolves
    (s : ResourceState) (cd : CollectionData) :
    (collectionFetchReceive s cd .malformed).loggedMalformed = true
    ∧ (collectionFetchReceive s cd .malformed).coll.models = []
    ∧ (collectionFetchReceive s cd .malformed).outcome = .resolved []
    ∧ (collectionFetchReceive s cd .malformed).outcome ≠ .rejectedWith
    ∧ (collectionFetchReceive s cd .malformed).coll.syncedOwn = true
    ∧ (collectionFetchReceive s cd .malformed).state = s := by
  exact ⟨rfl, rfl, rfl, fun h => FetchOutcome.noConfusion h, rfl, rfl⟩

/-- Witness for claim C5 (amended), at the concrete state `sW` with
the one-member collection `cdW`. -/
theorem collectionFetch_malformed_soft_resolves_witness :
    (collectionFetchReceive sW cdW .malformed).loggedMalformed = true
    ∧ (collectionFetchReceive sW cdW .malformed).outcome = FetchOutcome.resolved []
    ∧ (collectionFetchReceive sW cdW .malformed).state = sW := by
  have h := collectionFetch_malformed_soft_resolves sW cdW
  exact ⟨h.1, h.2.2.1, h.2.2.2.2.2⟩

/-- Counterexample for claim C5 as stated: on the concrete state `sW`
with the one-member collection `cdW`, a malformed fetch body leaves a
promise that IS resolved (with the emptied data), so it is false that
the promise is neither resolved with new data nor rejected; the
pre-fetch member data was non-empty, so the resolved value also differs
from the data before the fetch. -/
theorem collectionFetch_malformed_cex :
    collData sW cdW = [[("id", Value.vStr ("7")), ("b", Value.vNum 5)]]
    ∧ (collectionFetchReceive sW cdW .malformed).outcome = FetchOutcome.resolved []
    ∧ ¬ ((collectionFetchReceive sW cdW .malformed).loggedMalformed = true
        ∧ (∀ d, (collectionFetchReceive sW cdW .malformed).outcome
            ≠ FetchOutcome.resolved d)
        ∧ (collectionFetchReceive sW cdW .malformed).outcome
            ≠ FetchOutcome.rejectedWith) := by
  refine ⟨rfl, rfl, ?_⟩
  rintro ⟨-, h, -⟩
  exact h [] rfl

theorem natCeilDiv_eq_ceil {a b : Nat} (hb : 0 < b) :
    ((a + b - 1) / b : Nat) = ⌈(a : ℚ) / (b : ℚ)⌉₊ := by
  rcases Nat.eq_zero_or_pos a with ha | ha
  · subst ha
    rw [Nat.zero_add, Nat.div_eq_of_lt (by omega)]
    rw [Nat.cast_zero, zero_div, Nat.ceil_zero]
  · have hq : (0 : ℚ) < (b : ℚ) := by exact_mod_cast hb
    have hdm := Nat.div_add_mod (a + b - 1) b
    have hmod : (a + b - 1) % b < b := Nat.mod_lt _ hb
    have hn0 : (a + b - 1) / b ≠ 0 := by
      intro h
      rw [h, Nat.mul_zero, Nat.zero_add] at hdm
      omega
    rw [Nat.mul_comm] at hdm
    have hle : (a + b - 1) / b * b ≤ a + b - 1 := Nat.div_mul_le_self _ _
    have hupper : a ≤ (a + b - 1) / b * b := by
      generalize (a + b - 1) / b * b = t at hdm hle ⊢
      omega
    have hlower : ((a + b - 1) / b - 1) * b < a := by
      rw [Nat.sub_one_mul]
      generalize (a + b - 1) / b * b = t at hdm hle ⊢
      omega
    rw [eq_comm, Nat.ceil_eq_iff hn0]
    constructor
    · rw [lt_div_iff₀ hq]
      exact_mod_cast hlower
    · rw [div_le_iff₀ hq]
      exact_mod_cast hupper

/-- Claim C9 - a collection fetch whose body is a paginated envelope
with a `results` sequence and a `count` replaces the membership with
the processed results (independently of the previous members, which the
handler has reset) and sets `pageCount` to the ceiling of
`count / pageSize`; the natural-number formula the embedding computes
is exactly the real ceiling for any positive pageSize. -/
theorem collectionFetch_envelope_pagination
    (s : ResourceState) (cd : CollectionData) (results : List Attrs)
    (count ps : Nat) (hps : cd.pageSize = some ps) (h0 : 0 < ps) :
    (collectionFetchReceive s cd (.envelope results count)).coll.pageCount
        = some ((count + ps - 1) / ps)
    ∧ ((count + ps - 1) / ps : Nat) = ⌈(count : ℚ) / (ps : ℚ)⌉₊
    ∧ (collectionFetchReceive s cd (.envelope results count)).coll.models
        = (collectionSet s ({ cd with models := [], modelMap := [] })
            (results.map Sum.inl)).2.models := by
  have hpsz : (collectionSet s ({ cd with models := [], modelMap := [] })
      (results.map Sum.inl)).2.pageSize = some ps := by
    rw [collectionSet_pageSize]
    exact hps
  refine ⟨?_, natCeilDiv_eq_ceil h0, rfl⟩
  show pageCountOf count
      ((collectionSet s ({ cd with models := [], modelMap := [] })
        (results.map Sum.inl)).2.pageSize) = _
  rw [hpsz, pageCountOf]
  exact if_neg h0.ne'

/-- Witness for claim C9: a response with count 50 on a collection with
pageSize 20 yields pageCount 3. -/
theorem collectionFetch_envelope_pagination_witness :
    cdPaged20.pageSize = some 20 ∧ (0 : Nat) < 20
    ∧ (collectionFetchReceive sW cdPaged20 (.envelope [] 50)).coll.pageCount = some 3
    ∧ ((50 + 20 - 1) / 20 : Nat) = ⌈(50 : ℚ) / (20 : ℚ)⌉₊ := by
  have h := collectionFetch_envelope_pagination sW cdPaged20 [] 50 20 rfl (by decide)
  exact ⟨rfl, by decide, h.1.trans (by decide), h.2.1⟩

/-! State projection lemmas: the model-canonicalization path touches
only the model heap and the id cache, never the collection cache or the
params heap. -/

theorem addModelRef_proj (s : ResourceState) (r : Nat) :
    (addModelRef s r).1.collections = s.collections
    ∧ (addModelRef s r).1.paramsHeap = s.paramsHeap
    ∧ (addModelRef s r).1.collStore = s.collStore
    ∧ (addModelRef s r).1.idKey = s.idKey := by
  simp only [addModelRef]
  split
  all_goals try split
  all_goals try split
  all_goals exact ⟨rfl, rfl, rfl, rfl⟩

theorem createModel_proj (s : ResourceState) (data : Attrs) :
    (createModel s data).1.collections = s.collections
    ∧ (createModel s data).1.paramsHeap = s.paramsHeap
    ∧ (createModel s data).1.collStore = s.collStore
    ∧ (createModel s data).1.idKey = s.idKey :=
  addModelRef_proj { s with store := s.store ++ [newModel s.idKey data] } s.store.length

theorem addModel_proj (s : ResourceState) (input : Attrs ⊕ Nat) :
    (addModel s input).1.collections = s.collections
    ∧ (addModel s input).1.paramsHeap = s.paramsHeap
    ∧ (addModel s input).1.collStore = s.collStore
    ∧ (addModel s input).1.idKey = s.idKey := by
  cases input with
  | inl data => exact createModel_proj s data
  | inr r => exact addModelRef_proj s r

theorem collectionSetOne_proj (s : ResourceState) (cd : CollectionData)
    (input : Attrs ⊕ Nat) :
    (collectionSetOne s cd input).1.collections = s.collections
    ∧ (collectionSetOne s cd input).1.paramsHeap = s.paramsHeap
    ∧ (collectionSetOne s cd input).1.collStore = s.collStore
    ∧ (collectionSetOne s cd input).1.idKey = s.idKey := by
  simp only [collectionSetOne]
  split <;> exact addModel_proj s input

theorem collectionSet_proj (s : ResourceState) (cd : CollectionData)
    (inputs : List (Attrs ⊕ Nat)) :
    (collectionSet s cd inputs).1.collections = s.collections
    ∧ (collectionSet s cd inputs).1.paramsHeap = s.paramsHeap
    ∧ (collectionSet s cd inputs).1.collStore = s.collStore
    ∧ (collectionSet s cd inputs).1.idKey = s.idKey := by
  induction inputs generalizing s cd with
  | nil => exact ⟨rfl, rfl, rfl, rfl⟩
  | cons i t ih =>
      rw [collectionSet_cons]
      obtain ⟨h1, h2, h3, h4⟩ := ih (collectionSetOne s cd i).1 (collectionSetOne s cd i).2.1
      obtain ⟨g1, g2, g3, g4⟩ := collectionSetOne_proj s cd i
      exact ⟨h1.trans g1, h2.trans g2, h3.trans g3, h4.trans g4⟩

/-! Order independence of the collection cache key. -/

theorem sortKeys_eq_of_perm {l l' : List String} (h : l.Perm l') :
    sortKeys l = sortKeys l' :=
  List.eq_of_perm_of_sorted
    ((List.perm_insertionSort strLe l).trans (h.trans (List.perm_insertionSort strLe l').symm))
    (List.sorted_insertionSort strLe l) (List.sorted_insertionSort strLe l')

theorem collectionKeyPairs_eq_of_perm {p p' : Attrs} (h : p.Perm p')
    (hn : (keys p).Nodup) : collectionKeyPairs p = collectionKeyPairs p' := by
  rw [collectionKeyPairs, collectionKeyPairs]
  simp only [keys]
  rw [← sortKeys_eq_of_perm (h.map Prod.fst)]
  exact List.map_congr_left (fun k _ => by rw [objGet_eq_of_perm h hn k])

theorem collectionKey_eq_of_perm {p p' : Attrs} (h : p.Perm p')
    (hn : (keys p).Nodup) : collectionKey p = collectionKey p' :=
  congrArg stringifyPairs (collectionKeyPairs_eq_of_perm h hn)

/-- Cache-hit behaviour of `getCollection`. -/
theorem getCollection_hit (s : ResourceState) (ref : Nat)
    (data : List (Attrs ⊕ Nat)) {c : Nat}
    (hc : lookupRef s.collections (collectionKey (s.paramsHeap.getD ref [])) = some c) :
    getCollection s ref data = (s, c) := by
  simp only [getCollection, hc]

/-- Cache-miss behaviour of `getCollection`. -/
theorem getCollection_miss (s : ResourceState) (ref : Nat)
    (data : List (Attrs ⊕ Nat))
    (hc : lookupRef s.collections (collectionKey (s.paramsHeap.getD ref [])) = none) :
    getCollection s ref data =
      ({ (collectionNew s ref data).1 with
          collStore := (collectionNew s ref data).1.collStore ++ [(collectionNew s ref data).2],
          collections := (collectionKey (s.paramsHeap.getD ref []),
              (collectionNew s ref data).1.collStore.length)
            :: (collectionNew s ref data).1.collections },
        (collectionNew s ref data).1.collStore.length) := by
  simp only [getCollection, hc]

/-- Claim C7 - `getCollection` builds an order-independent cache key:
for params objects holding the same key-value pairs in any order, two
successive `getCollection` calls return the identical cached Collection
instance, and the second call leaves the state untouched. -/
theorem getCollection_order_independent
    (s : ResourceState) (i j : Nat) (p p' : Attrs)
    (data data' : List (Attrs ⊕ Nat))
    (hi : s.paramsHeap[i]? = some p) (hj : s.paramsHeap[j]? = some p')
    (hperm : p.Perm p') (hn : (keys p).Nodup) :
    (getCollection (getCollection s i data).1 j data').2 = (getCollection s i data).2
    ∧ (getCollection (getCollection s i data).1 j data').1 = (getCollection s i data).1 := by
  have hgi : s.paramsHeap.getD i [] = p := by
    rw [List.getD_eq_getElem?_getD, hi]
    rfl
  have hgj : s.paramsHeap.getD j [] = p' := by
    rw [List.getD_eq_getElem?_getD, hj]
    rfl
  have hkey : collectionKey p' = collectionKey p :=
    (collectionKey_eq_of_perm hperm hn).symm
  cases hl : lookupRef s.collections (collectionKey p) with
  | some c =>
      have h1 : getCollection s i data = (s, c) := getCollection_hit s i data (by rw [hgi]; exact hl)
      rw [h1]
      have h2 : getCollection s j data' = (s, c) :=
        getCollection_hit s j data' (by rw [hgj, hkey]; exact hl)
      rw [h2]
      exact ⟨rfl, rfl⟩
  | none =>
      have h1 := getCollection_miss s i data (by rw [hgi]; exact hl)
      rw [h1]
      obtain ⟨hcolls, hheap, hcstore, -⟩ := collectionSet_proj s (newCollection i) data
      have hheap2 : ({ (collectionNew s i data).1 with
          collStore := (collectionNew s i data).1.collStore ++ [(collectionNew s i data).2],
          collections := (collectionKey (s.paramsHeap.getD i []),
              (collectionNew s i data).1.collStore.length)
            :: (collectionNew s i data).1.collections } : ResourceState).paramsHeap
          = s.paramsHeap := hheap
      have h2 : getCollection ({ (collectionNew s i data).1 with
          collStore := (collectionNew s i data).1.collStore ++ [(collectionNew s i data).2],
          collections := (collectionKey (s.paramsHeap.getD i []),
              (collectionNew s i data).1.collStore.length)
            :: (collectionNew s i data).1.collections } : ResourceState) j data'
          = (_, (collectionNew s i data).1.collStore.length) :=
        getCollection_hit _ j data' (by
          show lookupRef ((collectionKey (s.paramsHeap.getD i []),
              (collectionNew s i data).1.collStore.length)
            :: (collectionNew s i data).1.collections) _ = _
          rw [show ({ (collectionNew s i data).1 with
              collStore := (collectionNew s i data).1.collStore ++ [(collectionNew s i data).2],
              collections := (collectionKey (s.paramsHeap.getD i []),
                  (collectionNew s i data).1.collStore.length)
                :: (collectionNew s i data).1.collections } : ResourceState).paramsHeap
              = s.paramsHeap from hheap, hgj, hkey, hgi, lookupRef_cons, if_pos rfl])
      rw [h2]
      exact ⟨rfl, rfl⟩

/-- Witness for claim C7: the two params objects of `sPerm` hold the
pairs a = 1, b = 2 in opposite insertion orders; the second
`getCollection` returns the instance cached by the first. -/
theorem getCollection_order_independent_witness :
    (sPerm.paramsHeap[0]? = some [("b", Value.vNum 2), ("a", Value.vNum 1)]
      ∧ sPerm.paramsHeap[1]? = some [("a", Value.vNum 1), ("b", Value.vNum 2)]
      ∧ List.Perm [("b", Value.vNum 2), ("a", Value.vNum 1)]
          [("a", Value.vNum 1), ("b", Value.vNum 2)]
      ∧ (keys [("b", Value.vNum 2), ("a", Value.vNum 1)]).Nodup)
    ∧ (getCollection (getCollection sPerm 0 []).1 1 []).2
        = (getCollection sPerm 0 []).2
    ∧ (getCollection (getCollection sPerm 0 []).1 1 []).1
        = (getCollection sPerm 0 []).1 := by
  have h := getCollection_order_independent sPerm 0 1
    [("b", Value.vNum 2), ("a", Value.vNum 1)]
    [("a", Value.vNum 1), ("b", Value.vNum 2)] [] []
    rfl rfl (by decide) (by decide)
  exact ⟨⟨rfl, rfl, by decide, by decide⟩, h.1, h.2⟩

theorem foldl_and_eq (f : Nat → Bool) (l : List Nat) (init : Bool) :
    l.foldl (fun acc r => acc && f r) init = (init && l.all f) := by
  induction l generalizing init with
  | nil => simp
  | cons a t ih => simp [List.foldl_cons, List.all_cons, ih, Bool.and_assoc]

/-- Claim C8 - the derived `synced` of a Collection: reading it yields
the own flag AND-ed over every member's synced flag; writing it sets
only the own flag; flipping any one member's flag to false makes the
derived value false; and with the own flag true it is true once every
member is synced. -/
theorem collectionSynced_derived
    (s : ResourceState) (cd : CollectionData) (r : Nat) (value : Bool)
    (hr : r ∈ cd.models) (hlt : r < s.store.length) :
    (collectionSyncedGet s cd
        = (cd.syncedOwn && cd.models.all (fun x => (s.store.getD x default).synced)))
    ∧ (collectionSyncedSet cd value = { cd with syncedOwn := value })
    ∧ (collectionSyncedGet (setModelSynced s r false) cd = false)
    ∧ (cd.syncedOwn = true →
        (∀ x ∈ cd.models, (s.store.getD x default).synced = true) →
        collectionSyncedGet s cd = true) := by
  refine ⟨foldl_and_eq _ cd.models cd.syncedOwn, rfl, ?_, ?_⟩
  · have hf : ((setModelSynced s r false).store.getD r default).synced = false := by
      show ((s.store.set r _).getD r default).synced = false
      rw [getD_set_self _ hlt]
    rw [collectionSyncedGet, foldl_and_eq]
    cases hca : cd.models.all
        (fun x => ((setModelSynced s r false).store.getD x default).synced) with
    | false => rw [Bool.and_false]
    | true =>
        have := List.all_eq_true.mp hca r hr
        rw [hf] at this
        cases this
  · intro h1 h2
    rw [collectionSyncedGet, foldl_and_eq, h1, List.all_eq_true.mpr h2, Bool.and_true]

/-- Witness for claim C8 on `sSync` and `cdSync`: with both members
synced the derived flag reads true; flipping member 0 to false flips it
to false. -/
theorem collectionSynced_derived_witness :
    (0 ∈ cdSync.models ∧ 0 < sSync.store.length)
    ∧ collectionSyncedGet sSync cdSync = true
    ∧ collectionSyncedGet (setModelSynced sSync 0 false) cdSync = false := by
  have h := collectionSynced_derived sSync cdSync 0 false (by decide) (by decide)
  exact ⟨⟨by decide, by decide⟩, h.2.2.2 rfl (by decide), h.2.2.1⟩

/-- The collection-construction path of `getCollection` never touches
the params heap. -/
theorem getCollection_paramsHeap (s : ResourceState) (ref : Nat)
    (data : List (Attrs ⊕ Nat)) :
    (getCollection s ref data).1.paramsHeap = s.paramsHeap := by
  cases hl : lookupRef s.collections (collectionKey (s.paramsHeap.getD ref [])) with
  | some c => rw [getCollection_hit s ref data hl]
  | none =>
      rw [getCollection_miss s ref data hl]
      exact (collectionSet_proj s (newCollection ref) data).2.1

/-- Claim C10 (amended) - `getPagedCollection` mutates the caller's
params object in place, inserting the page and page_size keys before
delegating to `getCollection` (no copy of the object is made: the heap
keeps its size and the entry at the caller's reference changes); when
the resulting cache key misses the collection cache, the Collection it
returns aliases that same mutated object as its default params.  (On a
cache hit the previously cached Collection, holding the params object
of its own creating call, is returned instead; see the
counterexample.) -/
theorem getPagedCollection_mutates_params
    (s : ResourceState) (ref : Nat) (p : Attrs) (pageSize page : Nat)
    (hp : s.paramsHeap[ref]? = some p) :
    ((getPagedCollection s ref pageSize page).1.paramsHeap[ref]?
        = some (objAssign p
            [("page", Value.vNum page), ("page_size", Value.vNum pageSize)]))
    ∧ (getPagedCollection s ref pageSize page).1.paramsHeap.length
        = s.paramsHeap.length
    ∧ objGet (objAssign p
          [("page", Value.vNum page), ("page_size", Value.vNum pageSize)]) ("page")
        = some (Value.vNum page)
    ∧ objGet (objAssign p
          [("page", Value.vNum page), ("page_size", Value.vNum pageSize)]) ("page_size")
        = some (Value.vNum pageSize)
    ∧ (lookupRef s.collections (collectionKey (objAssign p
          [("page", Value.vNum page), ("page_size", Value.vNum pageSize)])) = none →
        ((getPagedCollection s ref pageSize page).1.collStore[
            (getPagedCollection s ref pageSize page).2]?).map CollectionData.paramsRef
          = some ref) := by
  have href : ref < s.paramsHeap.length := by
    by_contra h
    rw [List.getElem?_eq_none (Nat.le_of_not_lt h)] at hp
    cases hp
  have hg : s.paramsHeap.getD ref [] = p := by
    rw [List.getD_eq_getElem?_getD, hp]
    rfl
  have hA : (getPagedCollection s ref pageSize page).1.paramsHeap
      = s.paramsHeap.set ref (objAssign p
          [("page", Value.vNum page), ("page_size", Value.vNum pageSize)]) := by
    show (getCollection ({ s with paramsHeap := (s.paramsHeap.set ref
        (objAssign (s.paramsHeap.getD ref [])
          [("page", Value.vNum page), ("page_size", Value.vNum pageSize)])) })
        ref []).1.paramsHeap = _
    rw [getCollection_paramsHeap, hg]
  have hsplit : objAssign p
        [("page", Value.vNum page), ("page_size", Value.vNum pageSize)]
      = setKey (setKey p ("page") (Value.vNum page)) ("page_size")
          (Value.vNum pageSize) := rfl
  refine ⟨?_, ?_, ?_, ?_, ?_⟩
  · rw [hA]
    exact List.getElem?_set_self href
  · rw [hA, List.length_set]
  · rw [hsplit, objGet_setKey_other _ _ (by decide), objGet_setKey_self]
  · rw [hsplit, objGet_setKey_self]
  · intro hmiss
    have hs0 : ({ s with paramsHeap := (s.paramsHeap.set ref
        (objAssign (s.paramsHeap.getD ref [])
          [("page", Value.vNum page), ("page_size", Value.vNum pageSize)])) }
          : ResourceState).paramsHeap.getD ref []
        = objAssign p [("page", Value.vNum page), ("page_size", Value.vNum pageSize)] := by
      show (s.paramsHeap.set ref _).getD ref [] = _
      rw [hg, List.getD_eq_getElem?_getD, List.getElem?_set_self href]
      rfl
    have hmiss0 : lookupRef ({ s with paramsHeap := (s.paramsHeap.set ref
        (objAssign (s.paramsHeap.getD ref [])
          [("page", Value.vNum page), ("page_size", Value.vNum pageSize)])) }
          : ResourceState).collections
        (collectionKey (({ s with paramsHeap := (s.paramsHeap.set ref
          (objAssign (s.paramsHeap.getD ref [])
            [("page", Value.vNum page), ("page_size", Value.vNum pageSize)])) }
            : ResourceState).paramsHeap.getD ref [])) = none := by
      rw [hs0]
      exact hmiss
    have hmissform := getCollection_miss _ ref [] hmiss0
    have hstep : getPagedCollection s ref pageSize page
        = (let r := getCollection ({ s with paramsHeap := (s.paramsHeap.set ref
            (objAssign (s.paramsHeap.getD ref [])
              [("page", Value.vNum page), ("page_size", Value.vNum pageSize)])) }
              : ResourceState) ref [];
          ({ r.1 with collStore := (r.1.collStore.set r.2
              ({ r.1.collStore.getD r.2 default with
                page := some page, pageSize := some pageSize })) }, r.2)) := rfl
    rw [hstep, hmissform]
    show ((s.collStore ++ [newCollection ref]).set s.collStore.length
        ({ (s.collStore ++ [newCollection ref]).getD s.collStore.length default with
          page := some page, pageSize := some pageSize }))[s.collStore.length]?.map
        CollectionData.paramsRef = some ref
    rw [getD_concat_length, List.getElem?_set_self (by
      rw [List.length_append, List.length_cons, List.length_nil]
      omega)]
    rfl

/-- Witness for claim C10 (amended) on the fresh state `sPage`: the
first call mutates params object 0 in place and, on the cache miss,
returns a Collection whose `paramsRef` is that same object 0. -/
theorem getPagedCollection_mutates_params_witness :
    (sPage.paramsHeap[0]? = some []
      ∧ lookupRef sPage.collections (collectionKey (objAssign []
          [("page", Value.vNum 1), ("page_size", Value.vNum 20)])) = none)
    ∧ (getPagedCollection sPage 0 20 1).1.paramsHeap[0]?
        = some (objAssign [] [("page", Value.vNum 1), ("page_size", Value.vNum 20)])
    ∧ ((getPagedCollection sPage 0 20 1).1.collStore[
          (getPagedCollection sPage 0 20 1).2]?).map CollectionData.paramsRef
        = some 0 := by
  have h := getPagedCollection_mutates_params sPage 0 [] 20 1 rfl
  exact ⟨⟨rfl, rfl⟩, h.1, h.2.2.2.2 rfl⟩

/-- Counterexample for claim C10 as stated: after a first
`getPagedCollection` call that created and cached the Collection for
params object 0, a second call passing the distinct params object 1
(which it does mutate in place to identical content) hits the cache and
returns the first call's Collection, whose default params is object 0,
not the caller's object 1 - so the returned Collection does not hold a
reference to the second caller's mutated object. -/
theorem getPagedCollection_aliasing_cex :
    ((getPagedCollection (getPagedCollection sPage 0 20 1).1 1 20 1).1.collStore[
        (getPagedCollection (getPagedCollection sPage 0 20 1).1 1 20 1).2]?).map
        CollectionData.paramsRef = some 0
    ∧ ¬ (((getPagedCollection (getPagedCollection sPage 0 20 1).1 1 20 1).1.collStore[
        (getPagedCollection (getPagedCollection sPage 0 20 1).1 1 20 1).2]?).map
        CollectionData.paramsRef = some 1) := by
  exact ⟨by decide, by decide⟩

end ApiResource
